import Mathlib

/-!
# Verification of the maid-in-abyss wiki pipeline

A shallow embedding, in Lean 4, of the core wiki content-acquisition and
caching pipeline of the `maid_in_abyss` repository:

* the page-alias resolution of `backend/api_types.py` (`_strip_rarity`,
  `PageInfoValidator.unpack_aliases`);
* the paginated iterator `WikiRequest` of `backend/api.py`;
* the cache layer of `backend/cache.py` (`ExpirePipeline.execute`, the
  `set_*`/`parse_*` helpers, `get_rarities`);
* the per-category request handlers of `backend/api.py`
  (`handle_battlesuit_request`, `handle_weapon_request`);
* the domain models of `models/stigmata.py` and `models/weapons.py`
  (`StigmataSet._validate_stigs`, `get_main_set_with_bonuses`,
  `Weapon._pack_stats`, `Weapon.max_rarity`);
* the inline markup renderer `parse_wiki_str` of `models/display.py`.

Python semantics that matter are modelled explicitly: dict/list truthiness,
tuple unpacking failures, `str.lower`, substring containment (`in`), and the
redis pipeline result list.  External collaborators (the HTTP transport, the
redis server's byte storage, `wikitextparser`'s span extraction, `disnake`
embed objects and the JSON text encoding) are modelled at their value-level
interfaces, as noted at each definition.
-/

set_option autoImplicit false

namespace MaidInAbyss

/-! ## Python string primitives

`pyLower` models `str.lower` (character-wise, sufficient for the ASCII titles
this wiki produces), and `pyIn` models Python's substring containment
`needle in hay`. -/

/-- Python `str.lower`, character-wise, on the character list of a string. -/
def pyLower (s : List Char) : List Char :=
  s.map Char.toLower

/-- Python substring containment `needle in hay` on character lists. -/
def pyIn (needle : List Char) : List Char → Bool
  | [] => needle.isEmpty
  | c :: rest => needle.isPrefixOf (c :: rest) || pyIn needle rest

theorem pyIn_of_isPrefixOf {needle hay : List Char}
    (h : needle.isPrefixOf hay = true) : pyIn needle hay = true := by
  cases hay with
  | nil =>
    cases needle with
    | nil => rfl
    | cons c cs => simp [List.isPrefixOf] at h
  | cons c rest => simp [pyIn, h]

theorem isPrefixOf_of_isPrefix {l₁ l₂ : List Char}
    (h : l₁ <+: l₂) : l₁.isPrefixOf l₂ = true := by
  exact List.isPrefixOf_iff_prefix.mpr h

/-! ## Page-alias resolution (`backend/api_types.py`)

`RARITY_SUFFIX_PATTERN = re.compile(r"/\d-star$", flags=re.I)` and
`_strip_rarity` delete a trailing `/<digit>-star` (case-insensitively) from a
title.  The regex can match at most once (it is anchored at the end), so the
`count=1` of `re.sub` is immaterial. -/

/-- Does the character list end in `/<digit>-star` (case-insensitive)?
Mirrors `RARITY_SUFFIX_PATTERN` from `backend/api_types.py`. -/
def hasRaritySuffix (cs : List Char) : Bool :=
  match cs.reverse with
  | r :: a :: t :: s :: dash :: d :: slash :: _ =>
    r.toLower = 'r' && a.toLower = 'a' && t.toLower = 't' && s.toLower = 's'
      && dash = '-' && d.isDigit && slash = '/'
  | _ => false

/-- `_strip_rarity`: remove a trailing `/<digit>-star` (case-insensitive). -/
def strip_rarity (title : String) : String :=
  if hasRaritySuffix title.data then
    ⟨title.data.take (title.data.length - 7)⟩
  else
    title

theorem strip_rarity_isPre (title : String) :
    (strip_rarity title).data <+: title.data := by
  unfold strip_rarity
  split
  · exact List.take_prefix _ _
  · exact List.prefix_rfl

/-- `TitleContainerValidator`: a namespace id and a title. -/
structure TitleContainerValidator where
  ns : Int
  title : String
  deriving DecidableEq, Repr

/-- One row yielded by `unpack_aliases`: the fixed `base` keys plus the
`title` key. -/
structure AliasRow where
  pageid : Int
  categories : List String
  alias_of : String
  title : String
  deriving DecidableEq, Repr

/-- `PageInfoValidator`: one source page record of the listing sweep. -/
structure PageInfoValidator where
  pageid : Int
  ns : Int
  title : String
  categories : List TitleContainerValidator
  redirects : List TitleContainerValidator := []
  deriving DecidableEq, Repr

/-- `PageInfoValidator.unpack_aliases`: yield one row for the rarity-stripped
canonical title, then one row per redirect whose (raw) title, lower-cased,
does not contain the lower-cased stripped canonical title as a substring
(Python: `if title.lower() not in redirect.title.lower()`). -/
def PageInfoValidator.unpack_aliases (p : PageInfoValidator) : List AliasRow :=
  let title := strip_rarity p.title
  let base : String → AliasRow := fun t =>
    { pageid := p.pageid
      categories := p.categories.map (·.title)
      alias_of := title
      title := t }
  base title ::
    (p.redirects.filter
        (fun r => !(pyIn (pyLower title.data) (pyLower r.title.data)))).map
      (fun r => base (strip_rarity r.title))

theorem pyLower_strip_isPre (t : String) :
    pyLower (strip_rarity t).data <+: pyLower t.data :=
  (strip_rarity_isPre t).map Char.toLower

/-- Two distinct redirects that strip to the same title (and do not contain
the canonical title) each produce a row, so `unpack_aliases` can yield two
rows with an identical title for one source record: with canonical title
`"X"` and redirects `"Y/4-star"` and `"Y/5-star"`, the yielded titles are
`["X", "Y", "Y"]`. -/
theorem unpack_aliases_duplicate_titles :
    ((PageInfoValidator.unpack_aliases
        { pageid := 1, ns := 0, title := "X", categories := [],
          redirects := [{ ns := 0, title := "Y/4-star" },
                        { ns := 0, title := "Y/5-star" }] }).map
      (·.title)) = ["X", "Y", "Y"] ∧
    ¬ (["X", "Y", "Y"] : List String).Nodup := by
  refine ⟨by decide, by decide⟩

/-- C4 (amended): `unpack_aliases` yields one row for the rarity-stripped
canonical title, then one row per redirect whose raw title, case-folded, does
not contain the case-folded stripped canonical title as a substring; no
redirect row ever carries the canonical title (even up to case folding).
Two redirects stripping to the same title can still duplicate each other
(see the counterexample); cross-row deduplication happens in
`fetch_unique_pages`, not here. -/
theorem unpack_aliases_rows (p : PageInfoValidator) :
    (p.unpack_aliases.map (·.title) =
      strip_rarity p.title ::
        (p.redirects.filter
            (fun r =>
              !(pyIn (pyLower (strip_rarity p.title).data)
                  (pyLower r.title.data)))).map
          (fun r => strip_rarity r.title)) ∧
    ∀ row ∈ p.unpack_aliases.tail,
      pyLower row.title.data ≠ pyLower (strip_rarity p.title).data := by
  constructor
  · simp [PageInfoValidator.unpack_aliases, List.map_map]
  · intro row hrow heq
    simp only [PageInfoValidator.unpack_aliases, List.tail_cons,
      List.mem_map, List.mem_filter] at hrow
    obtain ⟨r, ⟨hrmem, hfilter⟩, hrowEq⟩ := hrow
    have htitle : row.title = strip_rarity r.title := by
      rw [← hrowEq]
    rw [htitle] at heq
    have hpre : pyLower (strip_rarity p.title).data <+: pyLower r.title.data := by
      rw [← heq]
      exact pyLower_strip_isPre r.title
    have : pyIn (pyLower (strip_rarity p.title).data) (pyLower r.title.data) = true :=
      pyIn_of_isPrefixOf (isPrefixOf_of_isPrefix hpre)
    simp [this] at hfilter

/-- Witness for `unpack_aliases_rows`: with canonical title `"X"` and the
single surviving redirect `"Z"`, the redirect row's title differs from the
canonical title. -/
theorem unpack_aliases_rows_witness :
    pyLower (AliasRow.title ⟨1, [], "X", "Z"⟩).data ≠
      pyLower (strip_rarity "X").data :=
  (unpack_aliases_rows ⟨1, 0, "X", [], [⟨0, "Z"⟩]⟩).2 ⟨1, [], "X", "Z"⟩ (by decide)

/-! ## The paginated iterator `WikiRequest` (`backend/api.py`)

State: the base query parameters `_params`, the accumulated continuation
parameters `_continue`, the buffer of not-yet-yielded records of the current
chunk (`_iterator`), and the terminal flag `_done`.  Records are opaque here
(the per-record pydantic validation, which logs and skips invalid records,
does not affect pagination).  The HTTP transport is modelled as a script of
envelope responses consumed one per fetch; `warnings` blocks are only logged
by the source and are elided. -/

/-- One decoded envelope response: presence of the `batchcomplete` marker,
the optional `continue` mapping, and the records of `query.pages`. -/
structure WRResponse where
  batchcomplete : Bool
  contin : Option (List (String × String))
  pages : List String
  deriving DecidableEq, Repr

/-- The mutable state of one `WikiRequest`. -/
structure WRState where
  base : List (String × String)
  cont : List (String × String)
  buffer : List String
  done : Bool
  deriving DecidableEq, Repr

/-- Python `dict.__or__` (`a | b`) on association lists with distinct keys:
keys of `a` first (values overridden by `b`), then the new keys of `b`. -/
def dictUnion (a b : List (String × String)) : List (String × String) :=
  a.map (fun p =>
    match b.lookup p.1 with
    | some v => (p.1, v)
    | none => p) ++
    b.filter (fun q => (a.lookup q.1).isNone)

/-- The `params` property: `self._params | self._continue`. -/
def WRState.params (s : WRState) : List (String × String) :=
  dictUnion s.base s.cont

theorem dictUnion_nil (a : List (String × String)) : dictUnion a [] = a := by
  simp [dictUnion]

/-- `WikiRequest.get_chunk`, fused with the caller's installation of the
returned chunk as the new buffer (`self._iterator = iter(chunk.values())`):
the `batchcomplete` marker sets `_done`, and `_continue` is replaced by the
response's `continue` mapping, or reset to `{}` when the response has none
(`self._continue = data.get("continue", {})`). -/
def get_chunk (s : WRState) (r : WRResponse) : WRState :=
  { s with
    done := s.done || r.batchcomplete
    cont := r.contin.getD []
    buffer := r.pages }

/-- The observable outcome of one `__anext__` call. -/
structure StepOut where
  value : Option String
  state : WRState
  script : List WRResponse
  fetches : List (List (String × String))
  deriving DecidableEq, Repr

/-- `WikiRequest.__anext__`: serve from the buffer; on an empty buffer stop
if `_done` is set, otherwise fetch the next scripted response with the
merged parameters.  `value = none` is `StopAsyncIteration` (or, after a
fetch that produced an empty chunk, the escaping `StopIteration`).
`fetches` records the parameter sets of the fetches performed. -/
def anext (s : WRState) (script : List WRResponse) : StepOut :=
  match s.buffer with
  | v :: rest => ⟨some v, { s with buffer := rest }, script, []⟩
  | [] =>
    if s.done then ⟨none, s, script, []⟩
    else
      match script with
      | [] => ⟨none, s, [], [s.params]⟩
      | r :: restScript =>
        let s' := get_chunk s r
        match s'.buffer with
        | v :: rest => ⟨some v, { s' with buffer := rest }, restScript, [s.params]⟩
        | [] => ⟨none, s', restScript, [s.params]⟩

/-- A response with neither the batch-complete marker nor a continue token
does not end the sequence: after its records are drained the iterator
fetches again, now with exactly the base parameters (the continuation
parameters were reset to `{}`).  Here the first call consumes such a
response and yields its one record; the follow-up call performs a fetch
whose parameters are the base parameters. -/
theorem WikiRequest_refetches_with_base_params :
    (anext { base := [("action", "query")], cont := [("c", "1")],
             buffer := [], done := false }
        [⟨false, none, ["p1"]⟩, ⟨true, none, ["p2"]⟩]).value = some "p1" ∧
    (anext { base := [("action", "query")], cont := [("c", "1")],
             buffer := [], done := false }
        [⟨false, none, ["p1"]⟩, ⟨true, none, ["p2"]⟩]).state.done = false ∧
    (anext
        (anext { base := [("action", "query")], cont := [("c", "1")],
                 buffer := [], done := false }
          [⟨false, none, ["p1"]⟩, ⟨true, none, ["p2"]⟩]).state
        (anext { base := [("action", "query")], cont := [("c", "1")],
                 buffer := [], done := false }
          [⟨false, none, ["p1"]⟩, ⟨true, none, ["p2"]⟩]).script).fetches =
      [[("action", "query")]] := by
  decide

/-- C2 (amended): a batch-complete marker sets the terminal flag, and with
the terminal flag set and the buffer drained no fetch happens and the
sequence ends; a continue token replaces the continuation parameters, and
every fetch uses the base parameters merged with the current continuation
parameters; a response with neither marker nor token leaves the terminal
flag unchanged and resets the continuation parameters to empty, so once the
buffer drains the next fetch uses exactly the base parameters (the sequence
does not end on its own). -/
theorem WikiRequest_pagination :
    (∀ s r, r.batchcomplete = true → (get_chunk s r).done = true) ∧
    (∀ (s : WRState) script, s.buffer = [] → s.done = true →
      anext s script = ⟨none, s, script, []⟩) ∧
    (∀ s r c, r.contin = some c → (get_chunk s r).cont = c) ∧
    (∀ (s : WRState) r rest, s.buffer = [] → s.done = false →
      (anext s (r :: rest)).fetches = [dictUnion s.base s.cont]) ∧
    (∀ s r, r.batchcomplete = false → r.contin = none →
      (get_chunk s r).done = s.done ∧ (get_chunk s r).cont = [] ∧
        (get_chunk s r).params = s.base) := by
  refine ⟨?_, ?_, ?_, ?_, ?_⟩
  · intro s r h
    simp [get_chunk, h]
  · intro s script hbuf hdone
    obtain ⟨base, cont, buffer, done⟩ := s
    simp only at hbuf hdone
    subst hbuf hdone
    rfl
  · intro s r c h
    simp [get_chunk, h]
  · intro s r rest hbuf hdone
    obtain ⟨base, cont, buffer, done⟩ := s
    simp only at hbuf hdone
    subst hbuf hdone
    simp only [anext, WRState.params]
    split
    · simp_all
    · split <;> rfl
  · intro s r h1 h2
    refine ⟨by simp [get_chunk, h1], by simp [get_chunk, h2], ?_⟩
    simp [get_chunk, h2, WRState.params, dictUnion_nil]

/-- Witness for `WikiRequest_pagination`: its clauses evaluated on concrete
states and responses. -/
theorem WikiRequest_pagination_witness :
    ((get_chunk { base := [("a", "1")], cont := [], buffer := [], done := false }
        ⟨true, none, []⟩).done = true) ∧
    (anext { base := [("a", "1")], cont := [], buffer := [], done := true } [] =
      ⟨none, { base := [("a", "1")], cont := [], buffer := [], done := true }, [], []⟩) ∧
    ((get_chunk { base := [("a", "1")], cont := [], buffer := [], done := false }
        ⟨false, some [("k", "v")], []⟩).cont = [("k", "v")]) ∧
    ((anext { base := [("a", "1")], cont := [("k", "v")], buffer := [], done := false }
        [⟨true, none, ["p"]⟩]).fetches =
      [dictUnion [("a", "1")] [("k", "v")]]) ∧
    ((get_chunk { base := [("a", "1")], cont := [("k", "v")], buffer := [], done := false }
        ⟨false, none, []⟩).params = [("a", "1")]) :=
  ⟨WikiRequest_pagination.1 _ ⟨true, none, []⟩ rfl,
   WikiRequest_pagination.2.1 _ [] rfl rfl,
   WikiRequest_pagination.2.2.1 _ ⟨false, some [("k", "v")], []⟩ _ rfl,
   WikiRequest_pagination.2.2.2.1 _ ⟨true, none, ["p"]⟩ [] rfl rfl,
   (WikiRequest_pagination.2.2.2.2 _ ⟨false, none, []⟩ rfl rfl).2.2⟩

/-! ## The cache layer (`backend/cache.py`)

The redis store is modelled as an association list from keys to hashes
(association lists from field names to string values); the byte/TTL
bookkeeping of the real server is external.  A pipeline is a list of
commands executed in order against the store; `EXPIRE` only reports whether
its key exists (redis semantics), since wall-clock TTLs are outside the data
model. -/

/-! `ContentKind`: the fixed field-name tags of the cache wire format. -/

namespace ContentKind

def CATEGORY : String := "category"
def CONTENT : String := "content"
def WIKILINKS : String := "wikilinks"
def STATS : String := "stats"
def MIN_RARITY : String := "rarity"
def MAX_RARITY : String := "max_rarity"

end ContentKind

/-- The key-value store: one hash (field/value association list) per key. -/
abbrev Cache := List (String × List (String × String))

/-- `HGET`-style lookup of one field of one key. -/
def hget (c : Cache) (key field : String) : Option String :=
  (c.lookup key).bind (·.lookup field)

/-- `HMGET`: a same-length row of values-or-missing for the given fields. -/
def hmgetRow (c : Cache) (key : String) (fields : List String) :
    List (Option String) :=
  fields.map (hget c key)

/-- Does the key exist in the store? -/
def keyExists (c : Cache) (key : String) : Bool :=
  (c.lookup key).isSome

/-- `HSET` on one hash: the new pairs override, other fields survive. -/
def hsetMerge (old new : List (String × String)) : List (String × String) :=
  new ++ old.filter (fun p => (new.lookup p.1).isNone)

/-- `HSET` on the store. -/
def hsetCache (c : Cache) (key : String) (pairs : List (String × String)) :
    Cache :=
  match c with
  | [] => [(key, pairs)]
  | (k, fs) :: rest =>
    if k = key then (k, hsetMerge fs pairs) :: rest
    else (k, fs) :: hsetCache rest key pairs

/-- The redis commands the pipeline code issues.  The Python
`command_stack` holds `(args, options)` pairs whose `args` start with the
command name and the key; this inductive carries the same information. -/
inductive RCmd
  | hmget (key : String) (fields : List String)
  | hset (key : String) (pairs : List (String × String))
  | expire (key : String) (seconds : Nat)
  deriving DecidableEq, Repr

/-- The command-name string, as matched by `ExpirePipeline.execute`. -/
def RCmd.name : RCmd → String
  | .hmget .. => "HMGET"
  | .hset .. => "HSET"
  | .expire .. => "EXPIRE"

/-- The key the command touches (`args[1]`). -/
def RCmd.key : RCmd → String
  | .hmget k _ => k
  | .hset k _ => k
  | .expire k _ => k

/-- A Python value returned by one pipeline command, with its truthiness. -/
inductive PyVal
  | vlist (row : List (Option String))
  | vint (n : Nat)
  | vbool (b : Bool)
  deriving DecidableEq, Repr

/-- Python truthiness of a pipeline result: a list is truthy iff non-empty
(regardless of its elements), an int iff non-zero, a bool iff `True`. -/
def PyVal.truthy : PyVal → Bool
  | .vlist row => !row.isEmpty
  | .vint n => n != 0
  | .vbool b => b

/-- Python `all(...)` over a list of values. -/
def pyAll (l : List PyVal) : Bool :=
  l.all PyVal.truthy

/-- Execute one command against the store.  `HSET` returns the number of
newly created fields, `EXPIRE` whether the key exists (1/0, decoded to a
bool by the client); neither result is inspected by the source beyond
truthiness. -/
def evalCmd (c : Cache) : RCmd → Cache × PyVal
  | .hmget key fields => (c, .vlist (hmgetRow c key fields))
  | .hset key pairs =>
    let existing := (c.lookup key).getD []
    (hsetCache c key pairs,
      .vint ((pairs.filter (fun p => (existing.lookup p.1).isNone)).length))
  | .expire key _ => (c, .vbool (keyExists c key))

/-- Execute a command list in order, collecting the per-command results in
order — the list `Pipeline.execute` returns. -/
def runPipe : Cache → List RCmd → Cache × List PyVal
  | c, [] => (c, [])
  | c, cmd :: rest =>
    let (c', v) := evalCmd c cmd
    let (c'', vs) := runPipe c' rest
    (c'', v :: vs)

/-- `ExpirePipeline.CACHE_EXPIRE_TIME` (seconds). -/
def CACHE_EXPIRE_TIME : Nat := 300

/-- `ExpirePipeline.execute`: before running, append one
`EXPIRE key CACHE_EXPIRE_TIME` for every key that appears in a non-`EXPIRE`
command and has no explicit `EXPIRE` command in the batch.  (Python iterates
a set difference; the appended keys are deduplicated — `dedup` here — and
their relative order is irrelevant to every claim.) -/
def ExpirePipeline.execute (stack : List RCmd) : List RCmd :=
  let toExpire := (stack.filter (fun c => !(c.name == "EXPIRE"))).map RCmd.key
  let expired := (stack.filter (fun c => c.name == "EXPIRE")).map RCmd.key
  let pending := (toExpire.filter (fun k => decide (k ∉ expired))).dedup
  stack ++ pending.map (fun k => RCmd.expire k CACHE_EXPIRE_TIME)

/-- Is the command an `EXPIRE` of key `k`? -/
def isExpireOf (k : String) : RCmd → Bool
  | .expire k' _ => k' == k
  | _ => false

/-- Is the command an `EXPIRE` of key `k` with the fixed 300-second TTL? -/
def isExpire300 (k : String) : RCmd → Bool
  | .expire k' s => k' == k && s == 300
  | _ => false

theorem isExpireOf_iff {k : String} {c : RCmd} :
    isExpireOf k c = true ↔ (c.name = "EXPIRE" ∧ c.key = k) := by
  cases c <;> simp [isExpireOf, RCmd.name, RCmd.key]

theorem countP_beq_one_of_nodup {l : List String} {k : String}
    (hn : l.Nodup) (hm : k ∈ l) : l.countP (fun x => x == k) = 1 := by
  induction l with
  | nil => exact absurd hm (List.not_mem_nil k)
  | cons a t ih =>
    obtain ⟨ha, hnt⟩ := List.nodup_cons.mp hn
    rcases List.mem_cons.mp hm with heq | hmt
    · subst heq
      rw [List.countP_cons_of_pos _ _ (by simp)]
      have h0 : t.countP (fun x => x == k) = 0 :=
        List.countP_eq_zero.mpr fun x hx hbx => ha ((eq_of_beq hbx) ▸ hx)
      rw [h0]
    · rw [List.countP_cons_of_neg _ _
        (by intro h; exact ha ((eq_of_beq h) ▸ hmt))]
      exact ih hnt hmt

/-- C3: every key touched by a batch run through `ExpirePipeline.execute`
gets exactly one `EXPIRE` with the fixed 300-second TTL during that
execution, except keys for which the batch already contained an explicit
`EXPIRE`, which are skipped (the executed batch then contains exactly the
explicit `EXPIRE`s of the original batch for that key). -/
theorem ExpirePipeline_ttl_exactly_once
    (stack : List RCmd) (k : String) (htouch : ∃ c ∈ stack, c.key = k) :
    ((∃ c ∈ stack, c.name = "EXPIRE" ∧ c.key = k) →
      (ExpirePipeline.execute stack).countP (isExpireOf k) =
        stack.countP (isExpireOf k)) ∧
    ((∀ c ∈ stack, ¬(c.name = "EXPIRE" ∧ c.key = k)) →
      (ExpirePipeline.execute stack).countP (isExpireOf k) = 1 ∧
      (ExpirePipeline.execute stack).countP (isExpire300 k) = 1) := by
  have hexec : ExpirePipeline.execute stack =
      stack ++
        (((stack.filter (fun c => !(c.name == "EXPIRE"))).map RCmd.key).filter
            (fun k' =>
              decide
                (k' ∉ (stack.filter (fun c => c.name == "EXPIRE")).map RCmd.key))).dedup.map
          (fun k' => RCmd.expire k' CACHE_EXPIRE_TIME) := rfl
  set expired := (stack.filter (fun c => c.name == "EXPIRE")).map RCmd.key
    with hexpired
  set pending :=
    (((stack.filter (fun c => !(c.name == "EXPIRE"))).map RCmd.key).filter
      (fun k' => decide (k' ∉ expired))).dedup with hpending
  have happOf :
      (pending.map (fun k' => RCmd.expire k' CACHE_EXPIRE_TIME)).countP
        (isExpireOf k) = pending.countP (fun x => x == k) := by
    rw [List.countP_map]
    have : (isExpireOf k ∘ fun k' => RCmd.expire k' CACHE_EXPIRE_TIME) =
        fun x => x == k := by
      funext x
      simp [isExpireOf, Function.comp]
    rw [this]
  have happ300 :
      (pending.map (fun k' => RCmd.expire k' CACHE_EXPIRE_TIME)).countP
        (isExpire300 k) = pending.countP (fun x => x == k) := by
    rw [List.countP_map]
    have : (isExpire300 k ∘ fun k' => RCmd.expire k' CACHE_EXPIRE_TIME) =
        fun x => x == k := by
      funext x
      simp [isExpire300, Function.comp, CACHE_EXPIRE_TIME]
    rw [this]
  constructor
  · rintro ⟨c, hc, hname, hkey⟩
    have hkexpired : k ∈ expired := by
      rw [hexpired]
      exact List.mem_map.mpr
        ⟨c, List.mem_filter.mpr ⟨hc, by simp [hname]⟩, hkey⟩
    have hknotpending : k ∉ pending := by
      intro hk
      rw [hpending] at hk
      have := (List.mem_filter.mp (List.mem_dedup.mp hk)).2
      simp only [decide_eq_true_eq] at this
      exact this hkexpired
    have h0 : pending.countP (fun x => x == k) = 0 :=
      List.countP_eq_zero.mpr fun x hx hbx =>
        hknotpending ((eq_of_beq hbx) ▸ hx)
    rw [hexec, List.countP_append, happOf, h0, Nat.add_zero]
  · intro hnone
    obtain ⟨c₀, hc₀, hkey₀⟩ := htouch
    have hname₀ : c₀.name ≠ "EXPIRE" := by
      intro h
      exact hnone c₀ hc₀ ⟨h, hkey₀⟩
    have hknotexpired : k ∉ expired := by
      rw [hexpired]
      intro hk
      obtain ⟨c, hcf, hck⟩ := List.mem_map.mp hk
      obtain ⟨hcs, hcn⟩ := List.mem_filter.mp hcf
      simp only [beq_iff_eq] at hcn
      exact hnone c hcs ⟨hcn, hck⟩
    have hkpending : k ∈ pending := by
      rw [hpending]
      refine List.mem_dedup.mpr (List.mem_filter.mpr ⟨?_, by
        simp only [decide_eq_true_eq]
        exact hknotexpired⟩)
      exact List.mem_map.mpr
        ⟨c₀, List.mem_filter.mpr ⟨hc₀, by simp [hname₀]⟩, hkey₀⟩
    have hone : pending.countP (fun x => x == k) = 1 :=
      countP_beq_one_of_nodup (List.nodup_dedup _) hkpending
    have hstack0 : stack.countP (isExpireOf k) = 0 :=
      List.countP_eq_zero.mpr fun c hc hbc =>
        hnone c hc (isExpireOf_iff.mp hbc)
    have hstack300 : stack.countP (isExpire300 k) = 0 := by
      refine List.countP_eq_zero.mpr fun c hc hbc => ?_
      cases c with
      | expire k' s =>
        simp only [isExpire300, Bool.and_eq_true, beq_iff_eq] at hbc
        exact hnone _ hc ⟨rfl, hbc.1⟩
      | hmget k' f => exact absurd hbc (by simp [isExpire300])
      | hset k' p => exact absurd hbc (by simp [isExpire300])
    constructor
    · rw [hexec, List.countP_append, happOf, hstack0, hone]
    · rw [hexec, List.countP_append, happ300, hstack300, hone]

/-- Witness for `ExpirePipeline_ttl_exactly_once`: in a batch that writes
`k1`, explicitly expires `k2` and reads `k2`, the executed batch carries
exactly one 300-second `EXPIRE` for `k1`, and no appended `EXPIRE` for
`k2`. -/
theorem ExpirePipeline_ttl_once_witness :
    (ExpirePipeline.execute
        [RCmd.hset "k1" [("content", "x")], RCmd.expire "k2" 60,
         RCmd.hmget "k2" ["content"]]).countP (isExpire300 "k1") = 1 ∧
    (ExpirePipeline.execute
        [RCmd.hset "k1" [("content", "x")], RCmd.expire "k2" 60,
         RCmd.hmget "k2" ["content"]]).countP (isExpireOf "k2") =
      ([RCmd.hset "k1" [("content", "x")], RCmd.expire "k2" 60,
        RCmd.hmget "k2" ["content"]]).countP (isExpireOf "k2") :=
  ⟨((ExpirePipeline_ttl_exactly_once _ "k1" (by decide)).2 (by decide)).2,
   (ExpirePipeline_ttl_exactly_once _ "k2" (by decide)).1 (by decide)⟩

/-! ## Cache write-back helpers and request handlers (`backend/cache.py`,
`backend/api.py`)

The remote request functions (`request_battlesuit`, `request_weapon`)
perform the HTTP fetch, build the domain model and render it; for the cache
protocol their outcome is the set of serialized values the `set_*` helpers
write back, carried here as opaque strings.  `request_*` always returns a
(truthy) tuple — `request_content_revision` raises when no page exists — so
the handlers' `else: raise RuntimeError(...)` branch is unreachable and the
walrus `elif` condition is always true on the miss path. -/

/-- The serialized results of `request_battlesuit`, as written back by
`set_battlesuit`: `dump_content(content)` and `json_dumps(wikilinks)`. -/
structure BattlesuitRemote where
  contentDump : String
  wikilinksDump : String
  deriving DecidableEq, Repr

/-- The serialized results of `request_weapon`, as written back by
`set_weapon`: content, wikilinks, `dump_stats(weapon.stats)`,
`str(weapon.rarity.value)` and `str(weapon.max_rarity.value)`. -/
structure WeaponRemote where
  contentDump : String
  wikilinksDump : String
  statsDump : String
  rarityStr : String
  maxRarityStr : String
  deriving DecidableEq, Repr

/-- `set_battlesuit`: one `HSET` of all battlesuit fields under the page-id
key, run through an `ExpirePipeline`. -/
def set_battlesuit (c : Cache) (key : String) (r : BattlesuitRemote) : Cache :=
  (runPipe c (ExpirePipeline.execute
    [RCmd.hset key
      [(ContentKind.CATEGORY, "Category:Battlesuits"),
       (ContentKind.CONTENT, r.contentDump),
       (ContentKind.WIKILINKS, r.wikilinksDump)]])).1

/-- `set_weapon`: one `HSET` of all weapon fields under the page-id key,
run through an `ExpirePipeline`. -/
def set_weapon (c : Cache) (key : String) (r : WeaponRemote) : Cache :=
  (runPipe c (ExpirePipeline.execute
    [RCmd.hset key
      [(ContentKind.CATEGORY, "Category:Weapons"),
       (ContentKind.CONTENT, r.contentDump),
       (ContentKind.WIKILINKS, r.wikilinksDump),
       (ContentKind.STATS, r.statsDump),
       (ContentKind.MIN_RARITY, r.rarityStr),
       (ContentKind.MAX_RARITY, r.maxRarityStr)]])).1

/-- The observable outcome of one request handler call: which branch ran,
whether the remote client was invoked, whether a Python exception escaped
(deserializing a missing field on the cache branch), and the cache state
afterwards. -/
structure HandlerStep where
  tookCachePath : Bool
  remoteCalled : Bool
  failed : Bool
  cacheAfter : Cache
  deriving DecidableEq, Repr

/-- `handle_battlesuit_request`: one grouped `HMGET` of
`(content, wikilinks)` through an `ExpirePipeline`, then
`if all(data): ...` — note `data` is the pipeline result list
`[hmget_row, expire_result]`, so `all(data)` tests the truthiness of the
(always non-empty) row and of the `EXPIRE` reply, not the row's elements.
On the cache branch `parse_content`/`parse_wikilinks` raise if their field
was missing (`None`); deserialization of present fields is modelled as
succeeding (they are written only by `set_battlesuit`).  Otherwise the
remote client is invoked and `set_battlesuit` writes the full result
set. -/
def handle_battlesuit_request (c : Cache) (pageId : String)
    (remote : BattlesuitRemote) : HandlerStep :=
  let (c₁, data) := runPipe c (ExpirePipeline.execute
    [RCmd.hmget pageId [ContentKind.CONTENT, ContentKind.WIKILINKS]])
  if pyAll data then
    match data with
    | PyVal.vlist [some _, some _] :: _ => ⟨true, false, false, c₁⟩
    | _ => ⟨true, false, true, c₁⟩
  else
    ⟨false, true, false, set_battlesuit c₁ pageId remote⟩

/-- `handle_weapon_request`: as `handle_battlesuit_request` but over the
five weapon fields, writing back through `set_weapon` on the miss branch.
(The header formatting with `stats[0]` and the rarity bounds is
display-only and elided.) -/
def handle_weapon_request (c : Cache) (pageId : String)
    (remote : WeaponRemote) : HandlerStep :=
  let (c₁, data) := runPipe c (ExpirePipeline.execute
    [RCmd.hmget pageId
      [ContentKind.CONTENT, ContentKind.WIKILINKS, ContentKind.STATS,
       ContentKind.MIN_RARITY, ContentKind.MAX_RARITY]])
  if pyAll data then
    match data with
    | PyVal.vlist [some _, some _, some _, some _, some _] :: _ =>
      ⟨true, false, false, c₁⟩
    | _ => ⟨true, false, true, c₁⟩
  else
    ⟨false, true, false, set_weapon c₁ pageId remote⟩

/-- `get_rarities`: queues `HMGET key rarity` (a single field), then
unpacks `(raw_min_rarity, raw_max_rarity), *_ = await pipe.execute()` —
a two-variable unpacking of the one-element reply row. -/
def get_rarities (c : Cache) (key : String) : Except String (Int × Int) :=
  let (_, data) := runPipe c (ExpirePipeline.execute
    [RCmd.hmget key [ContentKind.MIN_RARITY]])
  match data with
  | PyVal.vlist [a, b] :: _ =>
    match a, b with
    | some mn, some mx =>
      if mn.isEmpty || mx.isEmpty then .error "CacheKeyError"
      else
        match mn.toInt?, mx.toInt? with
        | some i, some j => .ok (i, j)
        | _, _ => .error "ValueError: invalid literal for int"
    | _, _ => .error "CacheKeyError"
  | _ => .error "ValueError: not enough values to unpack"

theorem execute_hmget (pid : String) (fields : List String) :
    ExpirePipeline.execute [RCmd.hmget pid fields] =
      [RCmd.hmget pid fields, RCmd.expire pid CACHE_EXPIRE_TIME] := by
  simp [ExpirePipeline.execute, RCmd.name, RCmd.key, List.dedup]

theorem execute_hset (pid : String) (pairs : List (String × String)) :
    ExpirePipeline.execute [RCmd.hset pid pairs] =
      [RCmd.hset pid pairs, RCmd.expire pid CACHE_EXPIRE_TIME] := by
  simp [ExpirePipeline.execute, RCmd.name, RCmd.key, List.dedup]

theorem lookup_append_some {l₁ l₂ : List (String × String)} {f v : String}
    (h : l₁.lookup f = some v) : (l₁ ++ l₂).lookup f = some v := by
  induction l₁ with
  | nil => simp [List.lookup] at h
  | cons p t ih =>
    obtain ⟨k, b⟩ := p
    rw [List.cons_append]
    simp only [List.lookup] at h ⊢
    cases hb : (f == k) with
    | true => rw [hb] at h; exact h
    | false => rw [hb] at h; exact ih h

theorem hget_hsetCache_of_lookup {pairs : List (String × String)}
    {f v : String} (c : Cache) (key : String)
    (h : pairs.lookup f = some v) :
    hget (hsetCache c key pairs) key f = some v := by
  induction c with
  | nil =>
    simp only [hsetCache, hget, List.lookup, beq_self_eq_true, Option.bind]
    exact h
  | cons p t ih =>
    obtain ⟨k, fs⟩ := p
    by_cases hk : k = key
    · subst hk
      simp only [hsetCache, if_pos rfl, hget, List.lookup, beq_self_eq_true,
        Option.bind, hsetMerge]
      exact lookup_append_some h
    · simp only [hsetCache, if_neg hk, hget, List.lookup]
      rw [beq_eq_false_iff_ne.mpr (fun he => hk he.symm)]
      exact ih

theorem keyExists_hsetCache (c : Cache) (key : String)
    (pairs : List (String × String)) :
    keyExists (hsetCache c key pairs) key = true := by
  induction c with
  | nil => simp [hsetCache, keyExists, List.lookup]
  | cons p t ih =>
    obtain ⟨k, fs⟩ := p
    by_cases hk : k = key
    · subst hk
      simp [hsetCache, keyExists, List.lookup]
    · simp only [hsetCache, if_neg hk, keyExists, List.lookup]
      rw [beq_eq_false_iff_ne.mpr (fun he => hk he.symm)]
      exact ih

theorem set_battlesuit_eq (c : Cache) (pid : String) (r : BattlesuitRemote) :
    set_battlesuit c pid r =
      hsetCache c pid
        [(ContentKind.CATEGORY, "Category:Battlesuits"),
         (ContentKind.CONTENT, r.contentDump),
         (ContentKind.WIKILINKS, r.wikilinksDump)] := by
  rw [set_battlesuit, execute_hset]
  simp [runPipe, evalCmd]

theorem set_weapon_eq (c : Cache) (pid : String) (r : WeaponRemote) :
    set_weapon c pid r =
      hsetCache c pid
        [(ContentKind.CATEGORY, "Category:Weapons"),
         (ContentKind.CONTENT, r.contentDump),
         (ContentKind.WIKILINKS, r.wikilinksDump),
         (ContentKind.STATS, r.statsDump),
         (ContentKind.MIN_RARITY, r.rarityStr),
         (ContentKind.MAX_RARITY, r.maxRarityStr)] := by
  rw [set_weapon, execute_hset]
  simp [runPipe, evalCmd]

theorem handle_battlesuit_request_eq (c : Cache) (pid : String)
    (r : BattlesuitRemote) :
    handle_battlesuit_request c pid r =
      if keyExists c pid then
        match hget c pid ContentKind.CONTENT,
            hget c pid ContentKind.WIKILINKS with
        | some _, some _ => ⟨true, false, false, c⟩
        | _, _ => ⟨true, false, true, c⟩
      else ⟨false, true, false, set_battlesuit c pid r⟩ := by
  rw [handle_battlesuit_request, execute_hmget]
  simp only [runPipe, evalCmd, hmgetRow, List.map]
  cases hk : keyExists c pid with
  | false => simp [pyAll, PyVal.truthy, hk]
  | true =>
    simp only [pyAll, List.all, PyVal.truthy, hk, Bool.and_true, if_pos]
    cases hget c pid ContentKind.CONTENT <;>
      cases hget c pid ContentKind.WIKILINKS <;> simp

theorem handle_weapon_request_eq (c : Cache) (pid : String)
    (r : WeaponRemote) :
    handle_weapon_request c pid r =
      if keyExists c pid then
        match hget c pid ContentKind.CONTENT,
            hget c pid ContentKind.WIKILINKS, hget c pid ContentKind.STATS,
            hget c pid ContentKind.MIN_RARITY,
            hget c pid ContentKind.MAX_RARITY with
        | some _, some _, some _, some _, some _ => ⟨true, false, false, c⟩
        | _, _, _, _, _ => ⟨true, false, true, c⟩
      else ⟨false, true, false, set_weapon c pid r⟩ := by
  rw [handle_weapon_request, execute_hmget]
  simp only [runPipe, evalCmd, hmgetRow, List.map]
  cases hk : keyExists c pid with
  | false => simp [pyAll, PyVal.truthy, hk]
  | true =>
    simp only [pyAll, List.all, PyVal.truthy, hk, Bool.and_true, if_pos]
    cases hget c pid ContentKind.CONTENT <;>
      cases hget c pid ContentKind.WIKILINKS <;>
      cases hget c pid ContentKind.STATS <;>
      cases hget c pid ContentKind.MIN_RARITY <;>
      cases hget c pid ContentKind.MAX_RARITY <;> simp

theorem handle_battlesuit_hit {x y : String} (c : Cache) (pid : String)
    (r : BattlesuitRemote) (hkE : keyExists c pid = true)
    (hc : hget c pid ContentKind.CONTENT = some x)
    (hw : hget c pid ContentKind.WIKILINKS = some y) :
    handle_battlesuit_request c pid r = ⟨true, false, false, c⟩ := by
  rw [handle_battlesuit_request_eq, if_pos hkE, hc, hw]

theorem handle_weapon_hit {x y z u w : String} (c : Cache) (pid : String)
    (r : WeaponRemote) (hkE : keyExists c pid = true)
    (hc : hget c pid ContentKind.CONTENT = some x)
    (hw : hget c pid ContentKind.WIKILINKS = some y)
    (hs : hget c pid ContentKind.STATS = some z)
    (hmn : hget c pid ContentKind.MIN_RARITY = some u)
    (hmx : hget c pid ContentKind.MAX_RARITY = some w) :
    handle_weapon_request c pid r = ⟨true, false, false, c⟩ := by
  rw [handle_weapon_request_eq, if_pos hkE, hc, hw, hs, hmn, hmx]

/-- The claim's "cache-hit iff all fields present" is false: with a cache
whose key `"7"` exists but stores only the `content` field, the handler's
`all(data)` test — which inspects the pipeline result list
`[hmget_row, expire_result]`, not the row's elements — still succeeds, so
the cache branch is taken (and its deserialization of the missing
`wikilinks` field then raises) and the remote client is never invoked. -/
theorem handle_battlesuit_hit_without_all_fields :
    (handle_battlesuit_request [("7", [("content", "x")])] "7"
        { contentDump := "cc", wikilinksDump := "ww" }).tookCachePath = true ∧
    (handle_battlesuit_request [("7", [("content", "x")])] "7"
        { contentDump := "cc", wikilinksDump := "ww" }).remoteCalled = false ∧
    (handle_battlesuit_request [("7", [("content", "x")])] "7"
        { contentDump := "cc", wikilinksDump := "ww" }).failed = true ∧
    hget [("7", [("content", "x")])] "7" ContentKind.WIKILINKS = none := by
  refine ⟨by decide, by decide, by decide, by decide⟩

/-- C1 (amended): the per-category handlers take the cache branch iff the
grouped read's pipeline reports the key as existing (the `EXPIRE` result;
not a per-field presence test), and invoke the remote client exactly
otherwise; on a miss the full result set — every field the category
requires, plus the category tag — is written back under the page id; hence
a second call with the same page id before TTL expiry (i.e. against the
written-back cache) takes the cache branch, deserializes successfully and
performs no remote call.  Since the write-back stores all fields of a key
at once, a key the handlers themselves wrote always has every required
field on the hit path; the claim's per-field "iff" fails only for keys not
written by the category's own write-back (see the counterexample). -/
theorem handle_request_cache_protocol :
    (∀ (c : Cache) (pid : String) (r : BattlesuitRemote),
      (handle_battlesuit_request c pid r).tookCachePath = keyExists c pid ∧
      (handle_battlesuit_request c pid r).remoteCalled = !(keyExists c pid)) ∧
    (∀ (c : Cache) (pid : String) (r : WeaponRemote),
      (handle_weapon_request c pid r).tookCachePath = keyExists c pid ∧
      (handle_weapon_request c pid r).remoteCalled = !(keyExists c pid)) ∧
    (∀ (c : Cache) (pid : String) (r : BattlesuitRemote),
      keyExists c pid = false →
      hget (handle_battlesuit_request c pid r).cacheAfter pid
          ContentKind.CONTENT = some r.contentDump ∧
      hget (handle_battlesuit_request c pid r).cacheAfter pid
          ContentKind.WIKILINKS = some r.wikilinksDump ∧
      hget (handle_battlesuit_request c pid r).cacheAfter pid
          ContentKind.CATEGORY = some "Category:Battlesuits") ∧
    (∀ (c : Cache) (pid : String) (r : WeaponRemote),
      keyExists c pid = false →
      hget (handle_weapon_request c pid r).cacheAfter pid
          ContentKind.CONTENT = some r.contentDump ∧
      hget (handle_weapon_request c pid r).cacheAfter pid
          ContentKind.WIKILINKS = some r.wikilinksDump ∧
      hget (handle_weapon_request c pid r).cacheAfter pid
          ContentKind.STATS = some r.statsDump ∧
      hget (handle_weapon_request c pid r).cacheAfter pid
          ContentKind.MIN_RARITY = some r.rarityStr ∧
      hget (handle_weapon_request c pid r).cacheAfter pid
          ContentKind.MAX_RARITY = some r.maxRarityStr ∧
      hget (handle_weapon_request c pid r).cacheAfter pid
          ContentKind.CATEGORY = some "Category:Weapons") ∧
    (∀ (c : Cache) (pid : String) (r r' : BattlesuitRemote),
      keyExists c pid = false →
      handle_battlesuit_request
          (handle_battlesuit_request c pid r).cacheAfter pid r' =
        ⟨true, false, false,
          (handle_battlesuit_request c pid r).cacheAfter⟩) ∧
    (∀ (c : Cache) (pid : String) (r r' : WeaponRemote),
      keyExists c pid = false →
      handle_weapon_request
          (handle_weapon_request c pid r).cacheAfter pid r' =
        ⟨true, false, false,
          (handle_weapon_request c pid r).cacheAfter⟩) := by
  have hafterB : ∀ (c : Cache) (pid : String) (r : BattlesuitRemote),
      keyExists c pid = false →
      (handle_battlesuit_request c pid r).cacheAfter =
        hsetCache c pid
          [(ContentKind.CATEGORY, "Category:Battlesuits"),
           (ContentKind.CONTENT, r.contentDump),
           (ContentKind.WIKILINKS, r.wikilinksDump)] := by
    intro c pid r hk
    rw [handle_battlesuit_request_eq, if_neg (by simp [hk]), set_battlesuit_eq]
  have hafterW : ∀ (c : Cache) (pid : String) (r : WeaponRemote),
      keyExists c pid = false →
      (handle_weapon_request c pid r).cacheAfter =
        hsetCache c pid
          [(ContentKind.CATEGORY, "Category:Weapons"),
           (ContentKind.CONTENT, r.contentDump),
           (ContentKind.WIKILINKS, r.wikilinksDump),
           (ContentKind.STATS, r.statsDump),
           (ContentKind.MIN_RARITY, r.rarityStr),
           (ContentKind.MAX_RARITY, r.maxRarityStr)] := by
    intro c pid r hk
    rw [handle_weapon_request_eq, if_neg (by simp [hk]), set_weapon_eq]
  refine ⟨?_, ?_, ?_, ?_, ?_, ?_⟩
  · intro c pid r
    rw [handle_battlesuit_request_eq]
    cases hk : keyExists c pid with
    | false => simp
    | true =>
      simp only [if_pos rfl]
      cases hget c pid ContentKind.CONTENT <;>
        cases hget c pid ContentKind.WIKILINKS <;> simp
  · intro c pid r
    rw [handle_weapon_request_eq]
    cases hk : keyExists c pid with
    | false => simp
    | true =>
      simp only [if_pos rfl]
      cases hget c pid ContentKind.CONTENT <;>
        cases hget c pid ContentKind.WIKILINKS <;>
        cases hget c pid ContentKind.STATS <;>
        cases hget c pid ContentKind.MIN_RARITY <;>
        cases hget c pid ContentKind.MAX_RARITY <;> simp
  · intro c pid r hk
    rw [hafterB c pid r hk]
    exact ⟨hget_hsetCache_of_lookup c pid rfl,
      hget_hsetCache_of_lookup c pid rfl,
      hget_hsetCache_of_lookup c pid rfl⟩
  · intro c pid r hk
    rw [hafterW c pid r hk]
    exact ⟨hget_hsetCache_of_lookup c pid rfl,
      hget_hsetCache_of_lookup c pid rfl,
      hget_hsetCache_of_lookup c pid rfl,
      hget_hsetCache_of_lookup c pid rfl,
      hget_hsetCache_of_lookup c pid rfl,
      hget_hsetCache_of_lookup c pid rfl⟩
  · intro c pid r r' hk
    rw [hafterB c pid r hk]
    exact handle_battlesuit_hit _ _ _ (keyExists_hsetCache c pid _)
      (hget_hsetCache_of_lookup c pid rfl)
      (hget_hsetCache_of_lookup c pid rfl)
  · intro c pid r r' hk
    rw [hafterW c pid r hk]
    exact handle_weapon_hit _ _ _ (keyExists_hsetCache c pid _)
      (hget_hsetCache_of_lookup c pid rfl)
      (hget_hsetCache_of_lookup c pid rfl)
      (hget_hsetCache_of_lookup c pid rfl)
      (hget_hsetCache_of_lookup c pid rfl)
      (hget_hsetCache_of_lookup c pid rfl)

/-- Witness for `handle_request_cache_protocol`: starting from an empty
cache, a first battlesuit request misses and populates the cache, and the
immediate second request for the same page id is a clean cache hit with no
remote call. -/
theorem handle_request_cache_protocol_witness :
    handle_battlesuit_request
        (handle_battlesuit_request [] "7"
          { contentDump := "cc", wikilinksDump := "ww" }).cacheAfter "7"
        { contentDump := "c2", wikilinksDump := "w2" } =
      ⟨true, false, false,
        (handle_battlesuit_request [] "7"
          { contentDump := "cc", wikilinksDump := "ww" }).cacheAfter⟩ :=
  handle_request_cache_protocol.2.2.2.2.1 [] "7"
    { contentDump := "cc", wikilinksDump := "ww" }
    { contentDump := "c2", wikilinksDump := "w2" } rfl

/-- C10: `get_rarities` queues an `HMGET` for the single `rarity` field, so
the first element of the pipeline result list is a one-element row; the
two-variable unpacking of that row fails unconditionally, for every cache
state and key, and the success branch returning both rarity bounds is
unreachable. -/
theorem get_rarities_always_fails (c : Cache) (key : String) :
    get_rarities c key =
      .error "ValueError: not enough values to unpack" := by
  simp only [get_rarities, execute_hmget, runPipe, evalCmd, hmgetRow,
    List.map]

/-! ## Stigmata domain models (`models/stigmata.py`)

`Stigma` carries the per-piece stats and the set information, including the
optional 2-piece/3-piece bonus name/effect fields; `SetBonus` is the
derived bonus value object.  `StigmataSet._validate_stigs` and
`get_main_set_with_bonuses` are embedded below.  The wikitext-field
coercion (`_unpack_stig_data`, `_pack_obtain`, `_cast_rarity`) only shapes
the raw field mapping and is immaterial to the verified claims; the models
start from typed field values. -/

/-- `StigmaSlot`: the three equipment slots. -/
inductive StigmaSlot
  | TOP
  | MIDDLE
  | BOTTOM
  deriving DecidableEq, Repr, Fintype

/-- `StigmaRarity`: the 1–5 star rarities. -/
abbrev StigmaRarity := {n : Nat // 1 ≤ n ∧ n ≤ 5}

/-- `SetBonus`: a set bonus for a stigmata set. -/
structure SetBonus where
  name : String
  effect : String
  number : Nat
  deriving DecidableEq, Repr

/-- `Stigma`: a singular stigma together with its set information. -/
structure Stigma where
  name : String
  hp : Int
  attack : Int
  defense : Int
  crit : Int
  effect_name : String
  effect : String
  slot : StigmaSlot
  set_name : String
  set_name_2p : Option String
  set_effect_2p : Option String
  set_name_3p : Option String
  set_effect_3p : Option String
  rarity : StigmaRarity
  obtain : List (String × Bool)
  deriving DecidableEq

/-- Python truthiness of an optional string field. -/
def pyTruthyStr : Option String → Bool
  | some s => !s.isEmpty
  | none => false

/-- `Stigma.set_2p`: present only if both the 2-piece bonus name and effect
are truthy.  (The source passes `number=3` here as well.) -/
def Stigma.set_2p (s : Stigma) : Option SetBonus :=
  if pyTruthyStr s.set_name_2p && pyTruthyStr s.set_effect_2p then
    some ⟨s.set_name_2p.getD "", s.set_effect_2p.getD "", 3⟩
  else none

/-- `Stigma.set_3p`: present only if both the 3-piece bonus name and effect
are truthy. -/
def Stigma.set_3p (s : Stigma) : Option SetBonus :=
  if pyTruthyStr s.set_name_3p && pyTruthyStr s.set_effect_3p then
    some ⟨s.set_name_3p.getD "", s.set_effect_3p.getD "", 3⟩
  else none

/-- `Stigma.set_bonuses`: the tuple of present set bonuses. -/
def Stigma.set_bonuses (s : Stigma) : List SetBonus :=
  [s.set_2p, s.set_3p].filterMap id

/-- `StigmataSet`: a validated set of one, two or three stigmata. -/
structure StigmataSet where
  stigmata : List Stigma
  deriving DecidableEq

/-- `counts.setdefault(set_bonuses, []).append(stig)`: insertion-ordered
grouping by exact bonus content. -/
def addToCounts (counts : List (List SetBonus × List Stigma))
    (key : List SetBonus) (s : Stigma) :
    List (List SetBonus × List Stigma) :=
  match counts with
  | [] => [(key, [s])]
  | (k, l) :: rest =>
    if k = key then (k, l ++ [s]) :: rest
    else (k, l) :: addToCounts rest key s

/-- The `counts` dict of `get_main_set_with_bonuses`: group the stigmata
with non-empty bonuses by their exact bonus tuple, in insertion order. -/
def buildCounts (stigs : List Stigma) : List (List SetBonus × List Stigma) :=
  stigs.foldl
    (fun cs s =>
      if s.set_bonuses = [] then cs else addToCounts cs s.set_bonuses s)
    []

/-- One step of Python's `max(..., key=lambda pair: len(pair[1]))`: keep the
current maximum, replacing it only on a strictly larger group (so the first
maximal group in insertion order wins). -/
def maxStep (acc : Option (List SetBonus × List Stigma))
    (p : List SetBonus × List Stigma) :
    Option (List SetBonus × List Stigma) :=
  match acc with
  | none => some p
  | some q => if p.2.length > q.2.length then some p else some q

/-- `max(counts.items(), key=lambda pair: len(pair[1]))`, as a fold. -/
def maxBySize (l : List (List SetBonus × List Stigma)) :
    Option (List SetBonus × List Stigma) :=
  l.foldl maxStep none

/-- `StigmataSet.get_main_set_with_bonuses`: group by bonus payload; if no
group exists or every group is a singleton covering all stigmata
(`len(counts) == len(self.stigmata)`), return two empty tuples; otherwise
return the largest group and its bonuses truncated to `group_size - 1`. -/
def StigmataSet.get_main_set_with_bonuses (st : StigmataSet) :
    List Stigma × List SetBonus :=
  let counts := buildCounts st.stigmata
  if counts = [] || counts.length = st.stigmata.length then ([], [])
  else
    match maxBySize counts with
    | some (bonuses, stigs) => (stigs, bonuses.take (stigs.length - 1))
    | none => ([], [])

/-! ### `StigmataSet` construction (`_validate_stigs`)

Construction receives either an explicit list of `Stigma` (the
`values["stigmata"]` key, when truthy) or the raw wikitext field mapping,
from which one stigma is built per slot whose `slot{T,M,B}` key is present
(`Stigma(slot=slot, **values)`).  `StigCore` is the per-slot data of that
raw route; `toStigma` attaches the slot.  An explicit empty list is falsy
in Python, so it takes the raw route over a values dict with no slot keys
and produces the empty tuple. -/

/-- The slot-independent data of one raw-route stigma. -/
structure StigCore where
  name : String
  hp : Int
  attack : Int
  defense : Int
  crit : Int
  effect_name : String
  effect : String
  set_name : String
  set_name_2p : Option String
  set_effect_2p : Option String
  set_name_3p : Option String
  set_effect_3p : Option String
  rarity : StigmaRarity
  obtain : List (String × Bool)
  deriving DecidableEq

/-- `Stigma(slot=slot, **values)`: attach the slot to the raw data. -/
def StigCore.toStigma (c : StigCore) (slot : StigmaSlot) : Stigma :=
  ⟨c.name, c.hp, c.attack, c.defense, c.crit, c.effect_name, c.effect, slot,
   c.set_name, c.set_name_2p, c.set_effect_2p, c.set_name_3p,
   c.set_effect_3p, c.rarity, c.obtain⟩

/-- The two input shapes `_validate_stigs` handles. -/
inductive SetInput
  | explicit (l : List Stigma)
  | raw (top mid bot : Option StigCore)
  deriving DecidableEq

/-- The slot values of a stigmata list. -/
def slotsOf (l : List Stigma) : List StigmaSlot :=
  l.map (·.slot)

/-- `StigmataSet._validate_stigs`: build the stigmata (explicit list, or one
per present slot key in enum order), then require
`len({stig.slot for stig in stigmata}) == len(stigmata)` — at most one
stigma per slot. -/
def _validate_stigs : SetInput → Except String (List Stigma)
  | .explicit l =>
    if l.isEmpty then
      Except.ok []
    else if (slotsOf l).dedup.length = l.length then
      Except.ok l
    else
      Except.error "A set cannot have multiple stigmata share a slot"
  | .raw top mid bot =>
    let stigmata :=
      [(StigmaSlot.TOP, top), (StigmaSlot.MIDDLE, mid),
       (StigmaSlot.BOTTOM, bot)].filterMap
        (fun p => p.2.map (·.toStigma p.1))
    if (slotsOf stigmata).dedup.length = stigmata.length then
      Except.ok stigmata
    else
      Except.error "A set cannot have multiple stigmata share a slot"

theorem foldl_maxStep_spec :
    ∀ (l : List (List SetBonus × List Stigma))
      (acc : Option (List SetBonus × List Stigma))
      (g : List SetBonus × List Stigma),
      l.foldl maxStep acc = some g →
      (∀ p ∈ l, p.2.length ≤ g.2.length) ∧
      (∀ q, acc = some q → q.2.length ≤ g.2.length) := by
  intro l
  induction l with
  | nil =>
    intro acc g h
    rw [List.foldl_nil] at h
    refine ⟨fun p hp => absurd hp (List.not_mem_nil p), fun q hq => ?_⟩
    rw [hq] at h
    cases h
    exact le_refl _
  | cons p t ih =>
    intro acc g h
    rw [List.foldl_cons] at h
    obtain ⟨hall, hacc⟩ := ih (maxStep acc p) g h
    have hstep : ∃ q', maxStep acc p = some q' ∧ p.2.length ≤ q'.2.length ∧
        (∀ r, acc = some r → r.2.length ≤ q'.2.length) := by
      cases acc with
      | none => exact ⟨p, rfl, le_refl _, fun r hr => by cases hr⟩
      | some q =>
        by_cases hgt : p.2.length > q.2.length
        · refine ⟨p, by simp [maxStep, hgt], le_refl _, fun r hr => ?_⟩
          cases hr
          exact le_of_lt hgt
        · refine ⟨q, by simp [maxStep, hgt], Nat.le_of_not_lt hgt,
            fun r hr => ?_⟩
          cases hr
          exact le_refl _
    obtain ⟨q', hq'eq, hpq', hr⟩ := hstep
    constructor
    · intro x hx
      rcases List.mem_cons.mp hx with rfl | hxt
      · exact le_trans hpq' (hacc q' hq'eq)
      · exact hall x hxt
    · intro q hq
      exact le_trans (hr q hq) (hacc q' hq'eq)

/-- C5: a full set of three distinct-slot stigmata sharing one identical
two-bonus payload yields all three stigmata with both bonuses; three
stigmata with pairwise distinct non-empty payloads (1:1:1) yield two empty
tuples; in general, whenever the grouping is non-empty and smaller than the
stigma count, the result is the largest same-bonus group (first maximal in
insertion order) with its bonuses truncated to `group_size - 1` entries,
and that group's size is maximal among all groups. -/
theorem get_main_set_with_bonuses_spec :
    (∀ (s₁ s₂ s₃ : Stigma) (b₂ b₃ : SetBonus),
      s₁.slot ≠ s₂.slot → s₁.slot ≠ s₃.slot → s₂.slot ≠ s₃.slot →
      s₁.set_bonuses = [b₂, b₃] → s₂.set_bonuses = [b₂, b₃] →
      s₃.set_bonuses = [b₂, b₃] →
      StigmataSet.get_main_set_with_bonuses ⟨[s₁, s₂, s₃]⟩ =
        ([s₁, s₂, s₃], [b₂, b₃])) ∧
    (∀ (s₁ s₂ s₃ : Stigma),
      s₁.set_bonuses ≠ [] → s₂.set_bonuses ≠ [] → s₃.set_bonuses ≠ [] →
      s₁.set_bonuses ≠ s₂.set_bonuses → s₁.set_bonuses ≠ s₃.set_bonuses →
      s₂.set_bonuses ≠ s₃.set_bonuses →
      StigmataSet.get_main_set_with_bonuses ⟨[s₁, s₂, s₃]⟩ = ([], [])) ∧
    (∀ (st : StigmataSet) (g : List SetBonus × List Stigma),
      buildCounts st.stigmata ≠ [] →
      (buildCounts st.stigmata).length ≠ st.stigmata.length →
      maxBySize (buildCounts st.stigmata) = some g →
      st.get_main_set_with_bonuses = (g.2, g.1.take (g.2.length - 1)) ∧
      ∀ p ∈ buildCounts st.stigmata, p.2.length ≤ g.2.length) := by
  refine ⟨?_, ?_, ?_⟩
  · intro s₁ s₂ s₃ b₂ b₃ _ _ _ h₁ h₂ h₃
    have hc : buildCounts [s₁, s₂, s₃] = [([b₂, b₃], [s₁, s₂, s₃])] := by
      simp [buildCounts, h₁, h₂, h₃, addToCounts]
    simp [StigmataSet.get_main_set_with_bonuses, hc, maxBySize, maxStep]
  · intro s₁ s₂ s₃ h1 h2 h3 h12 h13 h23
    have hc : buildCounts [s₁, s₂, s₃] =
        [(s₁.set_bonuses, [s₁]), (s₂.set_bonuses, [s₂]),
         (s₃.set_bonuses, [s₃])] := by
      simp [buildCounts, h1, h2, h3, addToCounts, h12, h13, h23]
    simp [StigmataSet.get_main_set_with_bonuses, hc]
  · intro st g hne hlen hmax
    constructor
    · obtain ⟨bon, stg⟩ := g
      simp only [StigmataSet.get_main_set_with_bonuses]
      rw [if_neg (by simp [hne, hlen])]
      rw [hmax]
    · exact (foldl_maxStep_spec _ none g hmax).1

/-- A concrete TOP-slot stigma whose set grants both a 2-piece and a
3-piece bonus; used by the stigmata witnesses. -/
def stigTop : Stigma :=
  { name := "s", hp := 0, attack := 0, defense := 0, crit := 0,
    effect_name := "e", effect := "f", slot := .TOP, set_name := "S",
    set_name_2p := some "A", set_effect_2p := some "a",
    set_name_3p := some "B", set_effect_3p := some "b",
    rarity := ⟨5, by decide⟩, obtain := [] }

/-- The same stigma in the MIDDLE slot. -/
def stigMid : Stigma := { stigTop with slot := .MIDDLE }

/-- The same stigma in the BOTTOM slot. -/
def stigBot : Stigma := { stigTop with slot := .BOTTOM }

/-- Witness for `get_main_set_with_bonuses_spec`: a concrete full set with
identical payloads returns all three stigmata and both bonuses. -/
theorem get_main_set_with_bonuses_spec_witness :
    StigmataSet.get_main_set_with_bonuses ⟨[stigTop, stigMid, stigBot]⟩ =
      ([stigTop, stigMid, stigBot],
       [⟨"A", "a", 3⟩, ⟨"B", "b", 3⟩]) :=
  get_main_set_with_bonuses_spec.1 stigTop stigMid stigBot _ _
    (by decide) (by decide) (by decide) (by decide) (by decide) (by decide)

theorem dedup_len_iff {α : Type} [DecidableEq α] {l : List α} :
    l.dedup.length = l.length ↔ l.Nodup := by
  constructor
  · intro h
    have hsub := List.dedup_sublist l
    rw [← hsub.eq_of_length h]
    exact List.nodup_dedup l
  · intro h
    rw [List.dedup_eq_self.mpr h]

/-- A `StigmataSet` with zero stigmata constructs successfully: the raw
route with no present slot keys yields the empty tuple, which passes the
slot check — contradicting the claimed lower bound of one stigma. -/
theorem StigmataSet_empty_ok :
    _validate_stigs (SetInput.raw none none none) = Except.ok [] ∧
    ¬(1 ≤ ([] : List Stigma).length) :=
  ⟨rfl, by decide⟩

/-- C6 (amended): constructing a `StigmataSet` from an explicit list in
which two stigmata share a slot always fails validation; every successful
construction yields at most three stigmata with pairwise distinct slots —
but possibly zero, since the raw route with no slot keys (or an explicit
empty list, which is falsy) validates an empty set. -/
theorem StigmataSet_slot_validation :
    (∀ (l : List Stigma),
      ¬ l.Pairwise (fun a b => a.slot ≠ b.slot) →
      ∃ e, _validate_stigs (.explicit l) = .error e) ∧
    (∀ (inp : SetInput) (l : List Stigma),
      _validate_stigs inp = .ok l →
      l.length ≤ 3 ∧ (slotsOf l).Nodup) := by
  constructor
  · intro l h
    have hnodup : ¬ (slotsOf l).Nodup := by
      intro hn
      exact h (List.pairwise_map.mp hn)
    have hl : l.isEmpty = false := by
      cases l with
      | nil => exact absurd List.Pairwise.nil h
      | cons a t => rfl
    refine ⟨"A set cannot have multiple stigmata share a slot", ?_⟩
    simp only [_validate_stigs]
    rw [if_neg (by simp [hl]), if_neg ?_]
    intro hEq
    apply hnodup
    apply dedup_len_iff.mp
    rw [hEq]
    simp [slotsOf]
  · have hok : ∀ (l : List Stigma),
        (slotsOf l).dedup.length = l.length →
        l.length ≤ 3 ∧ (slotsOf l).Nodup := by
      intro l hd
      have hnodup : (slotsOf l).Nodup := by
        apply dedup_len_iff.mp
        rw [hd]
        simp [slotsOf]
      refine ⟨?_, hnodup⟩
      have hcard : (slotsOf l).length ≤ Fintype.card StigmaSlot :=
        hnodup.length_le_card
      have hc3 : Fintype.card StigmaSlot = 3 := by decide
      rw [hc3] at hcard
      simpa [slotsOf] using hcard
    intro inp l h
    cases inp with
    | explicit l' =>
      simp only [_validate_stigs] at h
      by_cases he : l'.isEmpty
      · rw [if_pos (by simp [he])] at h
        cases h
        exact ⟨by decide, List.Pairwise.nil⟩
      · rw [if_neg (by simp [he])] at h
        by_cases hd : (slotsOf l').dedup.length = l'.length
        · rw [if_pos hd] at h
          cases h
          exact hok _ hd
        · rw [if_neg hd] at h
          cases h
    | raw top mid bot =>
      simp only [_validate_stigs] at h
      by_cases hd :
          (slotsOf ([(StigmaSlot.TOP, top), (StigmaSlot.MIDDLE, mid),
            (StigmaSlot.BOTTOM, bot)].filterMap
              (fun p => p.2.map (·.toStigma p.1)))).dedup.length =
            ([(StigmaSlot.TOP, top), (StigmaSlot.MIDDLE, mid),
              (StigmaSlot.BOTTOM, bot)].filterMap
                (fun p => p.2.map (·.toStigma p.1))).length
      · rw [if_pos hd] at h
        cases h
        exact hok _ hd
      · rw [if_neg hd] at h
        cases h

/-- Witness for `StigmataSet_slot_validation`: two TOP-slot stigmata fail
validation; a singleton set validates with at most three pairwise
distinct-slot stigmata. -/
theorem StigmataSet_slot_validation_witness :
    (∃ e, _validate_stigs (.explicit [stigTop, stigTop]) = .error e) ∧
    (([stigTop] : List Stigma).length ≤ 3 ∧ (slotsOf [stigTop]).Nodup) :=
  ⟨StigmataSet_slot_validation.1 [stigTop, stigTop]
      (fun hp =>
        absurd rfl
          ((List.pairwise_cons.mp hp).1 stigTop (List.mem_cons_self _ _))),
   StigmataSet_slot_validation.2 (.explicit [stigTop]) [stigTop] rfl⟩

/-! ## Weapon domain model (`models/weapons.py`)

`Weapon._pack_stats` walks the six tier labels
`("base", "2nd", "3rd", "4th", "5th", "max")`; a tier participates iff its
`ATK_{label}Rarity` value is truthy (absent or empty source strings are
`none` here), its `CRT_{label}Rarity` is then read with a plain indexing
that raises `KeyError` when missing, and the entry's rarity is
`WeaponRarity(int(base_rarity) + len(stats))` — consecutive from the base
rarity, raising `ValueError` outside 1–6.  Skills, `pri_arm`, `obtain` and
`divine_key` are not touched by the verified claims and are elided. -/

/-- `WeaponRarity`: the 1–6 star rarities. -/
abbrev WeaponRarity := {n : Nat // 1 ≤ n ∧ n ≤ 6}

/-- `WeaponStats`: one per-rarity stats entry. -/
structure WeaponStats where
  attack : Int
  crit : Int
  rarity : WeaponRarity
  deriving DecidableEq

/-- `Weapon`: the parsed weapon document (claim-relevant fields). -/
structure Weapon where
  name : String
  type : String
  rarity : WeaponRarity
  stats : List WeaponStats
  description : String
  deriving DecidableEq

/-- The loop body of `Weapon._pack_stats` over the six tier slots, each
carrying the optional `(ATK, CRT)` values of its label. -/
def packStats (baseRarity : Nat) :
    List (Option Int × Option Int) → List WeaponStats →
    Except String (List WeaponStats)
  | [], acc => .ok acc
  | (none, _) :: rest, acc => packStats baseRarity rest acc
  | (some _, none) :: _, _ => .error "KeyError: CRT_Rarity"
  | (some a, some c) :: rest, acc =>
    let r := baseRarity + acc.length
    if h : 1 ≤ r ∧ r ≤ 6 then
      packStats baseRarity rest (acc ++ [⟨a, c, ⟨r, h⟩⟩])
    else
      .error "ValueError: not a valid WeaponRarity"

/-- `constants.WeaponRarity(...)`: valid for 1–6, `ValueError` otherwise. -/
def mkWeaponRarity (n : Nat) : Except String WeaponRarity :=
  if h : 1 ≤ n ∧ n ≤ 6 then .ok ⟨n, h⟩
  else .error "ValueError: not a valid WeaponRarity"

/-- `Weapon.parse_wikitext`-shaped construction: `_pack_stats` runs on the
raw values (with the raw `rarity` as base, raising first on a bad tier),
then the `rarity` field itself is validated as a `WeaponRarity`. -/
def Weapon.parse (name ty description : String) (rawRarity : Nat)
    (tiers : List (Option Int × Option Int)) : Except String Weapon :=
  match packStats rawRarity tiers [], mkWeaponRarity rawRarity with
  | .ok stats, .ok r => .ok ⟨name, ty, r, stats, description⟩
  | .error e, _ => .error e
  | .ok _, .error e => .error e

/-- `Weapon.max_rarity`: `self.stats[-1].rarity`; `none` models the
`IndexError` the Python property raises on an empty stats sequence. -/
def Weapon.max_rarity (w : Weapon) : Option WeaponRarity :=
  (w.stats.getLast?).map (·.rarity)

theorem packStats_spec :
    ∀ (tiers : List (Option Int × Option Int))
      (acc res : List WeaponStats) (base : Nat),
      packStats base tiers acc = .ok res →
      ∃ extra, res = acc ++ extra ∧
        extra.map (·.rarity.val) =
          List.range' (base + acc.length) extra.length := by
  intro tiers
  induction tiers with
  | nil =>
    intro acc res base h
    cases h
    exact ⟨[], by simp⟩
  | cons p rest ih =>
    intro acc res base h
    obtain ⟨oa, oc⟩ := p
    cases oa with
    | none =>
      obtain ⟨extra, hres, hmap⟩ := ih acc res base h
      exact ⟨extra, hres, hmap⟩
    | some a =>
      cases oc with
      | none => cases h
      | some c =>
        rw [packStats] at h
        split at h
        · rename_i hr
          obtain ⟨extra, hres, hmap⟩ := ih _ res base h
          refine ⟨⟨a, c, ⟨base + acc.length, hr⟩⟩ :: extra, ?_, ?_⟩
          · rw [hres, List.append_assoc]
            rfl
          · rw [List.map_cons, hmap, List.length_cons, List.range'_succ]
            simp [Nat.add_assoc]
        · cases h

/-- A weapon whose source defines no stat tier parses successfully with an
empty `stats` sequence (its `max_rarity` then raises), contradicting the
claimed non-emptiness of `stats` for every successfully parsed weapon. -/
theorem Weapon_empty_stats_parses :
    Weapon.parse "W" "Lance" "d" 4 (List.replicate 6 (none, none)) =
      Except.ok ⟨"W", "Lance", ⟨4, by decide⟩, [], "d"⟩ ∧
    (⟨"W", "Lance", ⟨4, by decide⟩, [], "d"⟩ : Weapon).stats = [] := by
  exact ⟨rfl, rfl⟩

/-- C7 (amended): for every successfully parsed weapon, the rarity values
of `stats` are exactly the consecutive range starting at the base rarity —
hence strictly ascending from the base rarity up — and when `stats` is
non-empty, `max_rarity` is the rarity of its last element, namely
`base + len(stats) - 1`.  The `stats` sequence may, however, be empty (see
the counterexample): parsing enforces no lower bound on it. -/
theorem Weapon_stats_spec :
    ∀ (name ty desc : String) (rawRarity : Nat)
      (tiers : List (Option Int × Option Int)) (w : Weapon),
      Weapon.parse name ty desc rawRarity tiers = .ok w →
      (w.stats.map (·.rarity.val) =
        List.range' w.rarity.val w.stats.length) ∧
      (w.stats ≠ [] →
        (w.max_rarity).map (·.val) =
          some (w.rarity.val + (w.stats.length - 1))) := by
  intro name ty desc rawRarity tiers w h
  have hmrval : ∀ {n : Nat} {r : WeaponRarity},
      mkWeaponRarity n = .ok r → r.val = n := by
    intro n r hmr
    unfold mkWeaponRarity at hmr
    split at hmr
    · cases hmr; rfl
    · cases hmr
  rw [Weapon.parse] at h
  cases hps : packStats rawRarity tiers [] with
  | error e => rw [hps] at h; cases h
  | ok stats =>
    cases hmr : mkWeaponRarity rawRarity with
    | error e => rw [hps, hmr] at h; cases h
    | ok r =>
      rw [hps, hmr] at h
      cases h
      have hrval : r.val = rawRarity := hmrval hmr
      obtain ⟨extra, hres, hmap⟩ := packStats_spec tiers [] stats rawRarity hps
      rw [List.nil_append] at hres
      subst hres
      simp only [List.length_nil, Nat.add_zero] at hmap
      dsimp only
      rw [hrval]
      refine ⟨hmap, ?_⟩
      intro hne
      rcases List.eq_nil_or_concat stats with rfl | ⟨L, x, rfl⟩
      · exact absurd rfl hne
      · rw [List.concat_eq_append] at hmap hne ⊢
        rw [List.map_append] at hmap
        simp only [List.length_append, List.length_cons, List.length_nil,
          List.map_cons, List.map_nil, Nat.zero_add] at hmap
        rw [List.range'_concat] at hmap
        have hinj :=
          List.append_inj hmap
            (by rw [List.length_map, List.length_range'])
        have hx : x.rarity.val = rawRarity + 1 * L.length := by
          have := hinj.2
          simpa using this
        simp [Weapon.max_rarity, List.getLast?_concat, hx]

/-- Witness for `Weapon_stats_spec`: a weapon with base rarity 4 and two
stat tiers has rarities `[4, 5]` and `max_rarity` 5. -/
theorem Weapon_stats_spec_witness :
    ((⟨"W", "L", ⟨4, by decide⟩,
        [⟨100, 10, ⟨4, by decide⟩⟩, ⟨120, 12, ⟨5, by decide⟩⟩],
        "d"⟩ : Weapon).stats.map (·.rarity.val) =
      List.range' 4 2) ∧
    ((⟨"W", "L", ⟨4, by decide⟩,
        [⟨100, 10, ⟨4, by decide⟩⟩, ⟨120, 12, ⟨5, by decide⟩⟩],
        "d"⟩ : Weapon).max_rarity.map (·.val) = some (4 + (2 - 1))) := by
  have h := Weapon_stats_spec "W" "L" "d" 4
    [(some 100, some 10), (some 120, some 12)]
    ⟨"W", "L", ⟨4, by decide⟩,
      [⟨100, 10, ⟨4, by decide⟩⟩, ⟨120, 12, ⟨5, by decide⟩⟩], "d"⟩ rfl
  exact ⟨h.1, h.2 (by decide)⟩

/-! ## Cache (de)serialization helpers (`backend/cache.py`)

The helpers are modelled at the JSON-value level: the UTF-8 text encoding
(`utilities.json_dumps` / `json_loads`, i.e. `orjson`) is the external
collaborator whose `loads ∘ dumps` is the identity on JSON values, and
`disnake` embeds travel as their `to_dict()` dictionaries (the
`to_dict`/`from_dict` pair is the external renderer's).  What remains of
the source helpers — the shape of `stat.dict()`, pydantic's re-validation
in `parse_raw_as(List[WeaponStats], ...)`, the array/object wrappers and
the tuple-to-array encoding of wikilink values — is embedded below. -/

/-- A JSON value (numbers restricted to integers, which is all this wire
format produces). -/
inductive Json
  | null
  | bool (b : Bool)
  | num (n : Int)
  | str (s : String)
  | arr (items : List Json)
  | obj (entries : List (String × Json))

/-- `stat.dict()`: the field mapping of one `WeaponStats`, in declaration
order, with the rarity enum serialized as its integer value. -/
def WeaponStats.dict (s : WeaponStats) : Json :=
  .obj [("attack", .num s.attack), ("crit", .num s.crit),
        ("rarity", .num s.rarity.val)]

/-- `dump_stats`: the JSON array of the stats' field mappings. -/
def dump_stats (stats : List WeaponStats) : Json :=
  .arr (stats.map WeaponStats.dict)

/-- Pydantic re-validation of one `WeaponStats` from a decoded JSON
object: integer `attack` and `crit`, and a `rarity` that is a valid
`WeaponRarity`. -/
def parseWeaponStatsJson (j : Json) : Except String WeaponStats :=
  match j with
  | .obj entries =>
    match entries.lookup "attack", entries.lookup "crit",
        entries.lookup "rarity" with
    | some (.num a), some (.num c), some (.num rr) =>
      match mkWeaponRarity rr.toNat with
      | .ok r => .ok ⟨a, c, r⟩
      | .error e => .error e
    | _, _, _ => .error "ValidationError"
  | _ => .error "ValidationError"

/-- `parse_stats = pydantic.parse_raw_as(List[WeaponStats], ...)`: the
decoded value must be an array, and each item re-validates in order. -/
def parse_stats (j : Json) : Except String (List WeaponStats) :=
  match j with
  | .arr items => parseStatsList items
  | _ => .error "ValidationError"
where
  parseStatsList : List Json → Except String (List WeaponStats)
    | [] => .ok []
    | j :: rest =>
      match parseWeaponStatsJson j with
      | .error e => .error e
      | .ok s =>
        match parseStatsList rest with
        | .error e => .error e
        | .ok t => .ok (s :: t)

/-- The wikilink graph value: page id to (title, category). -/
abbrev WikiLinkDict := List (String × (String × String))

/-- `utilities.json_dumps(wikilinks)`: the dict becomes a JSON object and
each `(title, category)` tuple becomes a two-element JSON array. -/
def dumpWikilinks (wl : WikiLinkDict) : Json :=
  .obj (wl.map (fun p => (p.1, .arr [.str p.2.1, .str p.2.2])))

/-- `parse_wikilinks = utilities.json_loads`: returns the decoded JSON
value as-is (in Python, the tuple values come back as two-element lists,
consumed interchangeably by all callers). -/
def parse_wikilinks (j : Json) : Json := j

/-- Reading the (title, category) pairs back out of a decoded wikilink
mapping. -/
def readWikilinkEntries (j : Json) : Except String WikiLinkDict :=
  match j with
  | .obj entries => readWikilinkPairs entries
  | _ => .error "ValidationError"
where
  readWikilinkPairs : List (String × Json) → Except String WikiLinkDict
    | [] => .ok []
    | (k, .arr [.str t, .str c]) :: rest =>
      match readWikilinkPairs rest with
      | .ok l => .ok ((k, (t, c)) :: l)
      | .error e => .error e
    | _ => .error "ValidationError"

/-- `dump_content`: the JSON array of the embeds' `to_dict()`
dictionaries. -/
def dump_content (content : List Json) : Json :=
  .arr content

/-- `parse_content`: map `FormattableEmbed.from_dict` over the decoded
list (embeds travel as their dictionaries here). -/
def parse_content (j : Json) : Except String (List Json) :=
  match j with
  | .arr items => .ok items
  | _ => .error "ValidationError"

theorem parseWeaponStatsJson_dict (s : WeaponStats) :
    parseWeaponStatsJson s.dict = .ok s := by
  obtain ⟨a, c, ⟨rv, hr⟩⟩ := s
  have hred : parseWeaponStatsJson
      (WeaponStats.dict ⟨a, c, ⟨rv, hr⟩⟩) =
        match mkWeaponRarity rv with
        | .ok r => .ok ⟨a, c, r⟩
        | .error e => .error e := rfl
  rw [hred, mkWeaponRarity, dif_pos hr]

/-- C8: the cache (de)serialization helpers round-trip.  Stats: for every
non-empty stats sequence, `parse_stats (dump_stats stats)` re-validates to
exactly `stats`.  Content: the dumped embed-dictionary list decodes to the
same list.  Wikilinks: the entries of the decoded mapping returned by
`parse_wikilinks` are exactly the dumped (page id, (title, category))
entries. -/
theorem cache_serialization_roundtrip :
    (∀ stats : List WeaponStats, stats ≠ [] →
      parse_stats (dump_stats stats) = .ok stats) ∧
    (∀ content : List Json,
      parse_content (dump_content content) = .ok content) ∧
    (∀ wl : WikiLinkDict,
      readWikilinkEntries (parse_wikilinks (dumpWikilinks wl)) = .ok wl) := by
  refine ⟨?_, ?_, ?_⟩
  · intro stats _
    have hlist : ∀ l : List WeaponStats,
        parse_stats.parseStatsList (l.map WeaponStats.dict) = .ok l := by
      intro l
      induction l with
      | nil => rfl
      | cons s t ih =>
        rw [List.map_cons, parse_stats.parseStatsList,
          parseWeaponStatsJson_dict, ih]
    rw [dump_stats, parse_stats]
    exact hlist stats
  · intro content
    rfl
  · intro wl
    have hpairs : ∀ l : WikiLinkDict,
        readWikilinkEntries.readWikilinkPairs
          (l.map (fun p => (p.1, Json.arr [.str p.2.1, .str p.2.2]))) =
          .ok l := by
      intro l
      induction l with
      | nil => rfl
      | cons p t ih =>
        obtain ⟨k, tt, cc⟩ := p
        rw [List.map_cons, readWikilinkEntries.readWikilinkPairs, ih]
    rw [parse_wikilinks, dumpWikilinks, readWikilinkEntries]
    exact hpairs wl

/-- Witness for `cache_serialization_roundtrip`: a concrete one-element
stats sequence round-trips. -/
theorem cache_serialization_roundtrip_witness :
    parse_stats (dump_stats [⟨100, 10, ⟨4, by decide⟩⟩]) =
      .ok [⟨100, 10, ⟨4, by decide⟩⟩] :=
  cache_serialization_roundtrip.1 [⟨100, 10, ⟨4, by decide⟩⟩] (by decide)

/-! ## The inline markup renderer `parse_wiki_str` (`models/display.py`)

The renderer works positionally over the character list of the input: each
matched span is replaced by its first cell set to the replacement string
and the remaining cells nulled (`replace`), so earlier replacements never
re-index later ones; the nulls are filtered out at the end.  Span
extraction itself (`get_bolds_and_italics`, `get_tags`, `wikilinks`,
`templates`) is `wikitextparser`'s — an external collaborator — so the
extracted items are passed in as data; the theorem for claim C9 supplies
the spans the library produces on its concrete input. -/

/-- `replace(lst, begin, end, repl)`:
`lst[begin:end] = [repl] + [None] * (end - begin - 1)`. -/
def replaceSpan (lst : List (Option String)) (b e : Nat)
    (repl : Option String) : List (Option String) :=
  lst.take b ++ repl :: (List.replicate (e - b - 1) none ++ lst.drop e)

/-- One bold/italic span: the element span and the relative span of its
match group 1 (the emphasised text). -/
structure EmItem where
  bold : Bool
  spanL : Nat
  spanH : Nat
  matchL : Nat
  matchH : Nat

/-- One HTML-like tag span: `contents` is the relative span of the
`contents` match group (`none` models the `-1` of a self-closing tag). -/
structure TagItem where
  spanL : Nat
  spanH : Nat
  contents : Option (Nat × Nat)
  cls : String
  name : String

/-- One wikilink span; `hasNested` models `wikilink.wikilinks` being
non-empty (an image link), `hasTextSpan` that `_match.span(4)` matched,
and `text`/`target` the link's display text and target. -/
structure LinkItem where
  spanL : Nat
  spanH : Nat
  hasNested : Bool
  hasTextSpan : Bool
  text : String
  target : String

/-- One template span; `hasNested` models `template.templates` being
non-empty. -/
structure TempItem where
  spanL : Nat
  spanH : Nat
  hasNested : Bool
  name : String

/-- `TAG_MAPPING`: tag classes rewritten to bold spans. -/
def TAG_MAPPING (cls : String) : Option (String × String) :=
  if cls = "inc" || cls = "increase" || cls = "color-blue" || cls = "inco"
  then some ("**", "**")
  else none

/-- `SELF_CLOSING_TAG_MAPPING`: `<br>` collapses to a line break. -/
def SELF_CLOSING_TAG_MAPPING (name : String) : Option String :=
  if name = "br" then some "\n" else none

/-- `TEMPLATE_MAPPING`: the `star` template becomes the star glyph. -/
def TEMPLATE_MAPPING (name : String) : Option String :=
  if name = "star" then some "★" else none

/-- `urlify`/`make_wiki_link` percent-encoding: one character of
`urllib.parse.quote(..., safe=r"{}")`. -/
def quoteChar (c : Char) : String :=
  if c.isAlphanum || c = '_' || c = '.' || c = '-' || c = '~'
      || c = Char.ofNat 123 || c = Char.ofNat 125 then
    String.mk [c]
  else
    String.join ((String.utf8EncodeChar c).map (fun b =>
      let n := b.toNat
      let hexDigit : Nat → Char := fun d =>
        if d < 10 then Char.ofNat (48 + d) else Char.ofNat (55 + d)
      String.mk ['%', hexDigit (n / 16), hexDigit (n % 16)]))

/-- `urlify` (non-image form): spaces to underscores, then
percent-encoding. -/
def urlify (s : String) : String :=
  String.join ((s.replace " " "_").data.map quoteChar)

/-- `make_wiki_link`: the wiki page URL for a title. -/
def make_wiki_link (name : String) : String :=
  "https://honkaiimpact3.fandom.com/" ++ urlify name

/-- `make_discord_link`: markdown `[display](link)`, defaulting the link
to the display text's wiki page. -/
def make_discord_link (display : String) (link : Option String) : String :=
  let l := link.getD (make_wiki_link display)
  "[" ++ display ++ "](" ++ l ++ ")"

/-- The bold/italic loop body of `parse_wiki_str`. -/
def processEm (lst : List (Option String)) (em : EmItem) :
    List (Option String) :=
  let repl := if em.bold then "**" else "_"
  let l1 := replaceSpan lst em.spanL (em.spanL + em.matchL) (some repl)
  replaceSpan l1 (em.spanL + em.matchH) em.spanH (some repl)

/-- The tag loop body of `parse_wiki_str`. -/
def processTag (lst : List (Option String)) (tag : TagItem) :
    List (Option String) :=
  match tag.contents with
  | some (mL, mH) =>
    let pair := match TAG_MAPPING tag.cls with
      | some (l, r) => (some l, some r)
      | none => ((none : Option String), (none : Option String))
    replaceSpan (replaceSpan lst tag.spanL (tag.spanL + mL) pair.1)
      (tag.spanL + mH) tag.spanH pair.2
  | none =>
    replaceSpan lst tag.spanL tag.spanH (SELF_CLOSING_TAG_MAPPING tag.name)

/-- The wikilink loop body of `parse_wiki_str`. -/
def processLink (lst : List (Option String)) (w : LinkItem) :
    List (Option String) :=
  if w.hasNested then
    replaceSpan lst w.spanL w.spanH (some "<placeholder1>")
  else if w.hasTextSpan && !w.text.isEmpty then
    replaceSpan lst w.spanL w.spanH
      (some (make_discord_link w.text (some (make_wiki_link w.target))))
  else
    replaceSpan lst w.spanL w.spanH (some (make_discord_link w.target none))

/-- The template loop body of `parse_wiki_str`. -/
def processTemplate (lst : List (Option String)) (t : TempItem) :
    List (Option String) :=
  if t.hasNested then lst
  else replaceSpan lst t.spanL t.spanH (TEMPLATE_MAPPING t.name)

/-- `parse_wiki_str`, over the spans extracted by `wikitextparser`. -/
def parse_wiki_str (s : String) (ems : List EmItem) (tags : List TagItem)
    (links : List LinkItem) (temps : List TempItem) : String :=
  let lst : List (Option String) :=
    s.data.map (fun c => some (String.mk [c]))
  let l1 := ems.foldl processEm lst
  let l2 := tags.foldl processTag l1
  let l3 := links.foldl processLink l2
  let l4 := temps.foldl processTemplate l3
  String.join (l4.filterMap id)

/-- The apostrophe character of wiki emphasis markup. -/
def apos : Char := Char.ofNat 39

/-- The input of end-to-end scenario C: `'''bold''' and ''italic''`. -/
def markupInput : String :=
  String.mk [apos, apos, apos, 'b', 'o', 'l', 'd', apos, apos, apos, ' ',
    'a', 'n', 'd', ' ', apos, apos, 'i', 't', 'a', 'l', 'i', 'c', apos,
    apos]

/-- The spans `wikitextparser.parse(markupInput).get_bolds_and_italics()`
reports: a bold at span (0, 10) with content group (3, 7), and an italic
at span (15, 25) with content group (2, 8); the input has no tags,
wikilinks or templates. -/
def markupEms : List EmItem :=
  [⟨true, 0, 10, 3, 7⟩, ⟨false, 15, 25, 2, 8⟩]

/-- C9: the inline renderer maps `'''bold''' and ''italic''` to
`**bold** and _italic_` — bold spans become `**` emphasis, italic spans
become `_` emphasis, and the surrounding text is unchanged. -/
theorem parse_wiki_str_bold_italic :
    parse_wiki_str markupInput markupEms [] [] [] =
      "**bold** and _italic_" := by
  rfl

end MaidInAbyss
